import Mathlib

/-!
Shallow embedding of `src/mike/mkdocs_plugin.py` (the mike mkdocs plugin):
the hook module cache (`MikePlugin._load_hook`), the event registry built in
`MikePlugin.on_config`, the dispatcher `MikePlugin.run_hook`, the site-url
rewrite in `on_config`, and the theme-asset injection in `MikePlugin.on_files`.
Python dicts keyed by strings are modelled as association lists, exceptions as
an explicit error type threaded through `Except`/`Option`, and the pieces of
the runtime the plugin calls into (the import machinery, the file system,
`urllib.parse.urljoin`, `os.path`) as explicit parameters or as small
functions modelled on the library's documented behaviour, each noted at its
definition. String primitives of Python (`str.startswith`, splitting on a
separator) are modelled over the character list of the string so that every
definition evaluates by kernel reduction.
-/

namespace Mike

/-- Python `s.startswith(pre)`, over the string's characters. -/
def strStartsWith (s pre : String) : Bool :=
  s.toList.take pre.toList.length == pre.toList

/-- Python `s.endswith(suf)`, over the string's characters. -/
def strEndsWith (s suf : String) : Bool :=
  s.toList.reverse.take suf.toList.length == suf.toList.reverse

/-- Split a character list at every occurrence of `c` (Python
`s.split(sep)` for a one-character separator: `n` separators yield `n+1`
pieces, empty pieces kept). -/
def splitChar (c : Char) : List Char → List (List Char)
  | [] => [[]]
  | x :: xs =>
    let r := splitChar c xs
    if x == c then [] :: r
    else
      match r with
      | [] => [[x]]
      | y :: ys => (x :: y) :: ys

/-- Split a string at every `/` (as `posixpath.normpath` does via
`path.split('/')`). -/
def strSplitSlash (s : String) : List String :=
  (splitChar '/' s.toList).map String.mk

/-- A raised Python exception, as far as the plugin's behaviour depends on it:
`exception ty msg` is `raise Ty(msg)` for an exception class `Ty` that is in
scope; `nameError n` is the `NameError` the interpreter raises when a plain
name `n` is evaluated but bound nowhere; `typeError msg` is a `TypeError`
raised by the interpreter (e.g. iterating `None`). -/
inductive PyErr where
  | exception (ty msg : String)
  | nameError (nm : String)
  | typeError (msg : String)
deriving DecidableEq, Repr

/-- The message carried by a raised exception (`str(e)`): for a `NameError`
the interpreter's own text, which mentions only the unbound name. -/
def PyErr.message : PyErr → String
  | .exception _ msg => msg
  | .nameError nm => "name '" ++ nm ++ "' is not defined"
  | .typeError msg => msg

/-- One member a loaded hook module exports: its attribute name and whether
`callable(getattr(m, name))` holds. -/
structure PyMember where
  name : String
  callable : Bool
deriving DecidableEq, Repr

/-- A loaded hook module: `id` is the object identity of the module object
(`module_from_spec` creates a fresh object on every call), `file` its
`__file__` attribute (the path it was loaded from), `members` the attributes
`dir(m)` enumerates once the module's top-level code has run, in `dir`'s
enumeration order. -/
structure Module where
  id : Nat
  file : String
  members : List PyMember
deriving DecidableEq, Repr

/-- The import machinery as `_load_hook` uses it: `specOf path` is
`importlib.util.spec_from_file_location(name, path)` — `none` when no spec can
be built for the path, `some hasLoader` otherwise, with `hasLoader = false`
when the produced spec's `loader` is `None`; `contentOf path` is the member
list the module at `path` exposes after `spec.loader.exec_module` has run its
top-level code. -/
structure PyEnv where
  specOf : String → Option Bool
  contentOf : String → List PyMember

/-- `os.path.relpath(path)`: the path made relative to the current working
directory. Modelled as the identity, i.e. for paths already given relative to
the working directory (the plugin only uses the result as the module's name,
never as a file-system location). -/
def relpath (path : String) : String := path

/-- Replace the binding of `k` in an association list, or append it: the
semantics of `d[k] = v` on a Python dict. -/
def updateAssoc {α : Type} (l : List (String × α)) (k : String) (v : α) :
    List (String × α) :=
  match l with
  | [] => [(k, v)]
  | (k', v') :: rest =>
    if k' = k then (k, v) :: rest else (k', v') :: updateAssoc rest k v

/-- The process state `_load_hook` reads and mutates: `nextId` feeds fresh
module-object identities; `cache` is the `functools.lru_cache` memoisation
table of `_load_hook` (keyed by the path argument; the decorator's cache for
one plugin instance); `sysModules` is `sys.modules`; `execTrace` records, in
order, every path whose top-level module code has been executed
(`spec.loader.exec_module`). -/
structure LoadState where
  nextId : Nat
  cache : List (String × Module)
  sysModules : List (String × Module)
  execTrace : List String
deriving DecidableEq, Repr

/-- The names bound at the top level of `src/mike/mkdocs_plugin.py` (its
imports, the `try`/`except` alias `PluginError`, and its two definitions). -/
def moduleGlobals : List String :=
  ["functools", "metadata", "os", "defaultdict", "urljoin", "opts",
   "BasePlugin", "File", "docs_version_var", "AliasType", "PluginError",
   "get_theme_dir", "MikePlugin"]

/-- What the failure branches of `_load_hook` actually raise. The source
executes `raise ValidationError(f"Cannot import path '{path}' as a Python
module")`, but `ValidationError` is bound neither in the module's namespace
(see `moduleGlobals`, traced from the import list of
`src/mike/mkdocs_plugin.py`) nor in `_load_hook`'s locals (`sys`, `os`,
`importlib`, `name`, `spec`, `module`), nor is it a Python builtin; so
evaluating the name raises `NameError` before the intended message (which
would have named the path) is ever built. -/
def validationErrorRaise (path : String) : PyErr :=
  if "ValidationError" ∈ moduleGlobals then
    .exception "ValidationError" ("Cannot import path '" ++ path ++ "' as a Python module")
  else
    .nameError "ValidationError"

/-- `MikePlugin._load_hook(path)` (src/mike/mkdocs_plugin.py lines 40–55).
The `functools.lru_cache` decorator first consults its table: a hit returns
the memoised module without running any of the body. On a miss the body runs:
build a spec for the path (raising if none can be built), create a fresh
module object, publish it in `sys.modules`, raise if the spec has no loader,
execute the module's top-level code, and return the module — which the
decorator then memoises. An exception is not memoised (the `lru_cache`
caches only normal returns), but state mutated before the raise stays. -/
def load_hook (env : PyEnv) (st : LoadState) (path : String) :
    Except PyErr Module × LoadState :=
  match st.cache.lookup path with
  | some m => (.ok m, st)
  | none =>
    let name := relpath path
    match env.specOf path with
    | none => (.error (validationErrorRaise path), st)
    | some hasLoader =>
      let m : Module := ⟨st.nextId, path, env.contentOf path⟩
      let st1 : LoadState :=
        { st with
            nextId := st.nextId + 1,
            sysModules := updateAssoc st.sysModules name m }
      if hasLoader then
        let st2 : LoadState := { st1 with execTrace := st1.execTrace ++ [path] }
        (.ok m, { st2 with cache := st2.cache ++ [(path, m)] })
      else
        (.error (validationErrorRaise path), st1)

/-- The event registry `self.events`: a `defaultdict(list)` from event name to
the registered handlers in registration order. A key is present only once a
handler has been appended under it. `H` is the type standing for the handler
callables. -/
abbrev EventMap (H : Type) := List (String × List H)

/-- `self.events[k].append(h)` on the `defaultdict(list)`: subscripting
creates the key with an empty list if absent, then the append extends the
key's list at the end. -/
def appendEvent {H : Type} (ev : EventMap H) (k : String) (h : H) : EventMap H :=
  match ev with
  | [] => [(k, [h])]
  | (k', hs) :: rest =>
    if k' = k then (k', hs ++ [h]) :: rest else (k', hs) :: appendEvent rest k h

/-- The message of the `Exception` raised in `on_config` for an exported
callable whose `on_*` name is not `on_pre_commit`:
`f"hook not supported: {member_name} in {m.__file__}"`. -/
def unsupportedHookMsg (memberName file : String) : String :=
  "hook not supported: " ++ memberName ++ " in " ++ file

/-- A member that makes `on_config` raise: callable, named `on_*`, and not
`on_pre_commit`. -/
def isBadHook (p : PyMember) : Bool :=
  p.callable && strStartsWith p.name "on_" && !(p.name == "on_pre_commit")

/-- A member that `on_config` registers under `pre_commit`: callable and
named `on_pre_commit`. -/
def isPreCommitHook (p : PyMember) : Bool :=
  p.callable && p.name == "on_pre_commit"

/-- The inner loop of `on_config`'s registry construction
(src/mike/mkdocs_plugin.py lines 76–82) over one module's members, in
`dir(m)` order: a callable `on_pre_commit` is appended under event
`pre_commit`; any other callable `on_*` member raises
`Exception(f"hook not supported: {member_name} in {m.__file__}")`; everything
else is skipped. -/
def scanMembers (m : Module) (ev : EventMap (Module × PyMember)) :
    List PyMember → Except PyErr (EventMap (Module × PyMember))
  | [] => .ok ev
  | p :: ps =>
    if p.callable && strStartsWith p.name "on_" then
      if p.name = "on_pre_commit" then
        scanMembers m (appendEvent ev "pre_commit" (m, p)) ps
      else
        .error (.exception "Exception" (unsupportedHookMsg p.name m.file))
    else
      scanMembers m ev ps

/-- The outer loop of `on_config`'s registry construction over the loaded
modules (`for m in modules: for member_name in dir(m): ...`); the registry
starts as `defaultdict(list)` (handler identity is the defining module
together with the member). -/
def buildEvents (ev : EventMap (Module × PyMember)) :
    List Module → Except PyErr (EventMap (Module × PyMember))
  | [] => .ok ev
  | m :: ms =>
    match scanMembers m ev m.members with
    | .ok ev' => buildEvents ev' ms
    | .error e => .error e

/-- Some module of `ms` exports a callable `on_*` member other than
`on_pre_commit`. -/
def hasBadHook (ms : List Module) : Bool :=
  ms.any (fun m => m.members.any isBadHook)

/-- Some module of `ms` with `__file__ = f` exports a callable `on_*` member
named `nm` other than `on_pre_commit`. -/
def badNamed (ms : List Module) (nm f : String) : Bool :=
  ms.any (fun m => m.file == f && m.members.any (fun p => p.name == nm && isBadHook p))

/-- All callable `on_pre_commit` members of the modules, in module order and
within a module in `dir` order: the handlers `on_config` registers. -/
def preCommitHandlers (ms : List Module) : List (Module × PyMember) :=
  (ms.map (fun m => (m.members.filter isPreCommitHook).map (fun p => (m, p)))).flatten

/-- The registry holding exactly the handlers `hs` under `pre_commit`: empty
when `hs` is (a `defaultdict` key exists only once appended to). -/
def pcMap (hs : List (Module × PyMember)) : EventMap (Module × PyMember) :=
  if hs.isEmpty then [] else [("pre_commit", hs)]

/-- The body of `run_hook`'s loop: invoke each handler in order with the
given keyword arguments, stopping at the first one that raises. Returns the
invocations actually made (handler, arguments) in order, and the exception of
the first failing handler if any. `ex h kw` is what calling handler `h` with
arguments `kw` does: `none` for a normal return, `some e` when it raises `e`. -/
def runHandlers {H K : Type} (ex : H → K → Option PyErr) (kw : K) :
    List H → List (H × K) × Option PyErr
  | [] => ([], none)
  | h :: hs =>
    match ex h kw with
    | some e => ([(h, kw)], some e)
    | none =>
      let r := runHandlers ex kw hs
      ((h, kw) :: r.1, r.2)

/-- `MikePlugin.run_hook(event, **kwargs)` (src/mike/mkdocs_plugin.py lines
84–87): if `event` is not a key of `self.events`, do nothing (the membership
test does not create the key); otherwise run the registered handlers in
order. Returns the registry as left behind, the invocations made, and the
propagated exception if a handler raised. -/
def run_hook {H K : Type} (events : EventMap H) (ex : H → K → Option PyErr)
    (event : String) (kw : K) : EventMap H × List (H × K) × Option PyErr :=
  match events.lookup event with
  | none => (events, [], none)
  | some hs => (events, runHandlers ex kw hs)

/-- Everything up to and including the last `/` of the string (empty when the
string has no `/`). -/
def dropLastSegment (s : String) : String :=
  String.mk ((s.toList.reverse.dropWhile (fun c => !(c == '/'))).reverse)

/-- `urllib.parse.urljoin(base, rel)` restricted to how `on_config` calls it:
modelled for an absolute `http(s)` base URL and a `rel` that is a plain
relative path reference (no scheme, no authority, no leading slash, no `.` or
`..` segments, no query or fragment — a version string such as `2.0` or
`latest`). For such inputs RFC 3986 resolution replaces everything after the
last `/` of the base with `rel`; the empty reference returns the base
unchanged. -/
def urljoin (base rel : String) : String :=
  if rel = "" then base else dropLastSegment base ++ rel

/-- The plugin's own configuration as validated against `config_scheme`
(src/mike/mkdocs_plugin.py lines 27–38): the fields in scheme order, each
defaulted to the scheme's declared default — in particular `hooks` defaults
to `None`. -/
structure PluginConfig where
  alias_type : String := "symlink"
  redirect_template : Option String := none
  deploy_prefix : String := ""
  version_selector : Bool := true
  canonical_version : Option String := none
  css_dir : String := "css"
  hooks : Option (List String) := none
  javascript_dir : String := "js"
deriving Repr

/-- Python truthiness of an optional string (`os.environ.get(...)`,
`config.get('site_url')`): present and non-empty. -/
def truthyStr : Option String → Bool
  | none => false
  | some s => !(s == "")

/-- What `on_config` leaves behind: the configuration's `site_url` (mutated
in place before any hook processing), the built event registry or the
exception that aborted configuration, and the hook-cache state. -/
structure OnConfigResult where
  site_url : Option String
  events : Except PyErr (EventMap (Module × PyMember))
  load : LoadState

/-- The list comprehension `[self._load_hook(f) for f in files]`: load each
path in order, threading the cache state; the first load error propagates
(with the state as mutated so far). -/
def loadAll (env : PyEnv) (st : LoadState) :
    List String → Except PyErr (List Module) × LoadState
  | [] => (.ok [], st)
  | p :: ps =>
    match load_hook env st p with
    | (.error e, st') => (.error e, st')
    | (.ok m, st') =>
      match loadAll env st' ps with
      | (.error e, st'') => (.error e, st'')
      | (.ok ms, st'') => (.ok (m :: ms), st'')

/-- `MikePlugin.on_config(config)` (src/mike/mkdocs_plugin.py lines 63–82).
`envVersion` is `os.environ.get(docs_version_var)` and `site_url` the
configuration's `site_url`; `pc.hooks` is
`config.plugins['mike'].config['hooks']`. First the url rewrite: when both
the version token and `site_url` are truthy, the `canonical_version` option
(when configured) replaces the token and `site_url` becomes their url-join.
Then `self.events = defaultdict(list)`, the hook files are loaded through
the cache and the registry is built from the loaded modules; with `hooks`
left at its scheme default `None`, the list comprehension iterates `None`
and the interpreter raises `TypeError: 'NoneType' object is not iterable`.
The url mutation survives a later raise (the record's `site_url` is set in
every branch). -/
def on_config (env : PyEnv) (pc : PluginConfig) (envVersion : Option String)
    (site_url : Option String) (st : LoadState) : OnConfigResult :=
  let site_url' :=
    if truthyStr envVersion && truthyStr site_url then
      match site_url, envVersion with
      | some u, some v =>
        some (urljoin u (match pc.canonical_version with | some c => c | none => v))
      | _, _ => site_url
    else site_url
  let rest : Except PyErr (EventMap (Module × PyMember)) × LoadState :=
    match pc.hooks with
    | none => (.error (.typeError "'NoneType' object is not iterable"), st)
    | some files =>
      match loadAll env st files with
      | (.error e, st') => (.error e, st')
      | (.ok ms, st') => (buildEvents [] ms, st')
  { site_url := site_url', events := rest.1, load := rest.2 }

/-- One step of `posixpath.normpath`'s component loop: skip empty and `.`
components; keep a component unless it is a `..` cancelling a previous real
component (a leading `..` of a relative path, or one following a kept `..`,
is itself kept; a `..` at an absolute root is dropped). -/
def normStep (isAbs : Bool) (acc : List String) (comp : String) : List String :=
  if comp == "" || comp == "." then acc
  else if !(comp == "..") || (!isAbs && acc.isEmpty) || acc.getLast? == some ".." then
    acc ++ [comp]
  else
    acc.dropLast

/-- `os.path.normpath` with POSIX separators (`posixpath.normpath`): collapse
repeated slashes and `.` components, resolve `..` against preceding
components, keep a doubled (but not tripled) leading slash, and render the
empty result as `.`. -/
def normpath (p : String) : String :=
  if p == "" then "."
  else
    let isAbs := strStartsWith p "/"
    let segs := (strSplitSlash p).foldl (normStep isAbs) []
    let pre :=
      if strStartsWith p "//" && !(strStartsWith p "///") then "//"
      else if isAbs then "/" else ""
    let out := pre ++ String.intercalate "/" segs
    if out == "" then "." else out

/-- `os.path.join(a, b)` with POSIX separators, for the two-argument calls
`on_files` makes: a `b` starting with `/` replaces `a`; otherwise `a` and `b`
joined with exactly one separator (none added after an empty or
slash-terminated `a`). -/
def pathJoin (a b : String) : String :=
  if strStartsWith b "/" then b
  else if a == "" || strEndsWith a "/" then a ++ b
  else a ++ "/" ++ b

/-- One entry of the build's file manifest as `on_files` appends it:
`File(f, srcdir, destdir, False)` from `mkdocs.structure.files`, fields in
the constructor's order (`use_directory_urls = False`). -/
structure FileDesc where
  path : String
  src_dir : String
  dest_dir : String
  use_directory_urls : Bool
deriving DecidableEq, Repr

/-- The slice of the host's build configuration that `on_files` reads and
mutates: the theme's name, the output directory `site_dir`, and the two
per-kind extra-assets lists. -/
structure SiteConfig where
  theme : String
  site_dir : String
  extra_css : List String
  extra_javascript : List String
deriving DecidableEq, Repr

/-- The theme-asset surroundings of `on_files`: `themeDir t` is
`get_theme_dir(t)` (src/mike/mkdocs_plugin.py lines 19–24) — `none` when the
`mike.themes` entry-point lookup raises the `ValueError` for an unknown theme
(caught in `on_files`), `some dir` otherwise; `listdir d` is `os.listdir(d)`
in its enumeration order. -/
structure FsEnv where
  themeDir : String → Option String
  listdir : String → List String

/-- The `PluginError` message
`'{!r} is already included in {!r}'.format(relative_dest, extra_kind)`. -/
def dupAssetMsg (dest extraKind : String) : String :=
  "'" ++ dest ++ "' is already included in '" ++ extraKind ++ "'"

/-- The inner file loop of `on_files` for one asset kind
(src/mike/mkdocs_plugin.py lines 105–112): for each listed file compute
`relative_dest = os.path.join(cfg_value, f)`; if it is among the normalized
pre-declared extras (`norm_extras`), raise `PluginError` naming the path and
the extra-assets option; else append the `File` descriptor to the manifest
and the path to the kind's extras list. Returns the manifest and the extras
list as left behind and the raised exception if any. -/
def injectFiles (cfg_value srcdir destdir extraKind : String)
    (normExtras : List String) :
    List String → List FileDesc → List String →
      List FileDesc × List String × Option PyErr
  | [], files, extras => (files, extras, none)
  | f :: fs, files, extras =>
    let relative_dest := pathJoin cfg_value f
    if relative_dest ∈ normExtras then
      (files, extras,
        some (.exception "PluginError" (dupAssetMsg relative_dest extraKind)))
    else
      injectFiles cfg_value srcdir destdir extraKind normExtras fs
        (files ++ [⟨f, srcdir, destdir, false⟩]) (extras ++ [relative_dest])

/-- One iteration of `on_files`' kind loop
(`for path, prop in [('css', 'css'), ('js', 'javascript')]`): `cfg_value` is
the configured destination directory for the kind (`css_dir`/
`javascript_dir`), `sub` the theme's subdirectory (`css`/`js`), `extraKind`
the name of the extra-assets option; the collision set is the pre-declared
extras list normalized once before the file loop, which runs over
`os.listdir` of the theme's kind directory. -/
def injectKind (fs : FsEnv) (theme_dir site_dir cfg_value sub extraKind : String)
    (extras : List String) (files : List FileDesc) :
    List FileDesc × List String × Option PyErr :=
  let srcdir := pathJoin theme_dir sub
  let destdir := pathJoin site_dir cfg_value
  injectFiles cfg_value srcdir destdir extraKind (extras.map normpath)
    (fs.listdir srcdir) files extras

/-- `MikePlugin.on_files(files, config)` (src/mike/mkdocs_plugin.py lines
89–112): a no-op when `version_selector` is off; a no-op when
`get_theme_dir(config['theme'].name)` raises `ValueError` (unknown theme,
caught); otherwise inject the `css` kind then the `js` kind, mutating the
manifest and the per-kind extras lists as it goes — a raised `PluginError`
aborts the loop but the mutations already made stay. -/
def on_files (fs : FsEnv) (pc : PluginConfig) (cfg : SiteConfig)
    (files : List FileDesc) : List FileDesc × SiteConfig × Option PyErr :=
  if !pc.version_selector then (files, cfg, none)
  else
    match fs.themeDir cfg.theme with
    | none => (files, cfg, none)
    | some theme_dir =>
      let r1 := injectKind fs theme_dir cfg.site_dir pc.css_dir "css" "extra_css"
        cfg.extra_css files
      let cfg1 := { cfg with extra_css := r1.2.1 }
      match r1.2.2 with
      | some e => (r1.1, cfg1, some e)
      | none =>
        let r2 := injectKind fs theme_dir cfg.site_dir pc.javascript_dir "js"
          "extra_javascript" cfg.extra_javascript r1.1
        (r2.1, { cfg1 with extra_javascript := r2.2.1 }, r2.2.2)

/-- The plugin configuration with every option at its scheme default. -/
def pcDefault : PluginConfig := {}

/-- The plugin configuration with `canonical_version` set to `latest`. -/
def pcLatest : PluginConfig := { canonical_version := some "latest" }

/-- The plugin configuration with the version selector disabled. -/
def pcNoSel : PluginConfig := { version_selector := false }

/-- A theme-asset environment that recognises no theme. -/
def fsNone : FsEnv := ⟨fun _ => none, fun _ => []⟩

/-- A theme, `mkdocs`, whose asset root `theme` ships one css asset
(`extra.css`) and one js asset (`extra.js`). -/
def fsC9 : FsEnv :=
  ⟨fun t => if t == "mkdocs" then some "theme" else none,
   fun d =>
     if d == "theme/css" then ["extra.css"]
     else if d == "theme/js" then ["extra.js"] else []⟩

/-- A theme, `mkdocs`, whose asset root `theme` ships `css/theme.css` and no
js assets. -/
def fsC5 : FsEnv :=
  ⟨fun t => if t == "mkdocs" then some "theme" else none,
   fun d => if d == "theme/css" then ["theme.css"] else []⟩

/-- A build configuration with a user-declared extra js asset `js/extra.js`
that collides with what the `mkdocs` theme of `fsC9` ships. -/
def cfgC9 : SiteConfig := ⟨"mkdocs", "site", [], ["js/extra.js"]⟩

/-- A build configuration for an unknown theme with one pre-declared extra
css asset. -/
def cfgEx : SiteConfig := ⟨"readthedocs", "site", ["css/mine.css"], []⟩

/-- A one-entry starting manifest. -/
def exFiles : List FileDesc := [⟨"index.html", "docs", "site", false⟩]

/-- A concrete import environment in which every path resolves to a spec with
a loader and modules export no members. -/
def exEnv : PyEnv := ⟨fun _ => some true, fun _ => []⟩

/-- The fresh load state of a new process. -/
def st0 : LoadState := ⟨0, [], [], []⟩

/-- The state after loading `hooks.py` in `exEnv` from `st0`. -/
def exSt1 : LoadState :=
  ⟨1, [("hooks.py", ⟨0, "hooks.py", []⟩)], [("hooks.py", ⟨0, "hooks.py", []⟩)],
   ["hooks.py"]⟩

/-- An import environment in which no path can be resolved to a module spec
(`spec_from_file_location` returns `None`, e.g. for a file whose extension no
importer recognises). -/
def badEnv : PyEnv := ⟨fun _ => none, fun _ => []⟩

/-- A hook module exporting a callable `on_deploy`. -/
def modBad : Module := ⟨0, "hooks.py", [⟨"on_deploy", true⟩]⟩

/-- A hook module exporting a callable `on_pre_commit` along with inert
members. -/
def modGood : Module :=
  ⟨1, "good_hooks.py", [⟨"__name__", false⟩, ⟨"on_pre_commit", true⟩, ⟨"helper", true⟩]⟩

/-- A concrete registry with two handlers under `pre_commit` (handlers stand
as naturals here: `run_hook` is generic in the handler type). -/
def evEx : EventMap Nat := [("pre_commit", [7, 8])]

/-- Concrete handler behaviour: every call returns normally. -/
def exAllOk : Nat → Nat → Option PyErr := fun _ _ => none

end Mike

namespace Mike

theorem lookup_append_of_none {α β : Type} [BEq α] {l₁ : List (α × β)} (l₂ : List (α × β))
    (k : α) (h : l₁.lookup k = none) : (l₁ ++ l₂).lookup k = l₂.lookup k := by
  induction l₁ with
  | nil => rfl
  | cons p rest ih =>
    rw [List.cons_append]
    rw [List.lookup] at h ⊢
    cases hk : k == p.1 with
    | true =>
      rw [hk] at h
      exact Option.noConfusion h
    | false =>
      rw [hk] at h
      exact ih h

/-- C1: loading the same hook path twice through the hook module cache yields
the same module handle; the first (uncached) load executes the module's
top-level code exactly once, and a repeat load returns the memoised handle
without re-executing anything (the whole load state, `execTrace` included, is
unchanged). -/
theorem load_hook_memoized (env : PyEnv) (st : LoadState) (path : String)
    (m : Module) (st' : LoadState)
    (h : load_hook env st path = (.ok m, st')) :
    (st.cache.lookup path = none → st'.execTrace = st.execTrace ++ [path]) ∧
    st'.cache.lookup path = some m ∧
    load_hook env st' path = (.ok m, st') := by
  unfold load_hook at h
  cases hc : st.cache.lookup path with
  | some m0 =>
    rw [hc] at h
    injection h with h1 h2
    injection h1 with hm
    subst hm
    subst h2
    refine ⟨fun hn => ?_, hc, ?_⟩
    · exact Option.noConfusion hn
    · unfold load_hook
      rw [hc]
  | none =>
    rw [hc] at h
    cases hs : env.specOf path with
    | none =>
      rw [hs] at h
      injection h with h1 h2
      exact Except.noConfusion h1
    | some hasLoader =>
      rw [hs] at h
      cases hasLoader with
      | false =>
        simp only [Bool.false_eq_true, if_false] at h
        injection h with h1 h2
        exact Except.noConfusion h1
      | true =>
        simp only [if_true] at h
        injection h with h1 h2
        injection h1 with hm
        subst hm
        subst h2
        have hl : (st.cache ++ [(path, Module.mk st.nextId path (env.contentOf path))]).lookup
            path = some (Module.mk st.nextId path (env.contentOf path)) := by
          rw [lookup_append_of_none _ path hc]
          simp [List.lookup]
        refine ⟨fun _ => rfl, hl, ?_⟩
        unfold load_hook
        rw [hl]

theorem load_hook_memoized_witness :
    (st0.cache.lookup "hooks.py" = none → exSt1.execTrace = st0.execTrace ++ ["hooks.py"]) ∧
    exSt1.cache.lookup "hooks.py" = some ⟨0, "hooks.py", []⟩ ∧
    load_hook exEnv exSt1 "hooks.py" = (.ok ⟨0, "hooks.py", []⟩, exSt1) :=
  load_hook_memoized exEnv st0 "hooks.py" ⟨0, "hooks.py", []⟩ exSt1 rfl

theorem bool_false_of_not_true {b : Bool} (h : ¬ b = true) : b = false := by
  cases b
  · rfl
  · exact absurd rfl h

theorem runHandlers_all_ok {H K : Type} (ex : H → K → Option PyErr) (kw : K)
    (hs : List H) (hok : ∀ h ∈ hs, ex h kw = none) :
    runHandlers ex kw hs = (hs.map (fun h => (h, kw)), none) := by
  induction hs with
  | nil => rfl
  | cons h tl ih =>
    have h0 : ex h kw = none := hok h (List.mem_cons_self h tl)
    have htl := ih (fun x hx => hok x (List.mem_cons_of_mem _ hx))
    simp [runHandlers, h0, htl]

theorem runHandlers_stops {H K : Type} (ex : H → K → Option PyErr) (kw : K) :
    ∀ (hs : List H) (n : Nat) (h : H) (e : PyErr),
      hs[n]? = some h → ex h kw = some e →
      (∀ m hm, m < n → hs[m]? = some hm → ex hm kw = none) →
      runHandlers ex kw hs = ((hs.take (n + 1)).map (fun x => (x, kw)), some e) := by
  intro hs
  induction hs with
  | nil => intro n h e hn; simp at hn
  | cons h0 tl ih =>
    intro n h e hn he hb
    cases n with
    | zero =>
      rw [List.getElem?_cons_zero] at hn
      injection hn with hn
      subst hn
      simp [runHandlers, he]
    | succ n' =>
      have h00 : ex h0 kw = none := hb 0 h0 (Nat.succ_pos n') List.getElem?_cons_zero
      have hn' : tl[n']? = some h := by rwa [List.getElem?_cons_succ] at hn
      have hb' : ∀ m hm, m < n' → tl[m]? = some hm → ex hm kw = none := by
        intro m hm hlt hget
        exact hb (m + 1) hm (Nat.succ_lt_succ hlt) (by rwa [List.getElem?_cons_succ])
      simp [runHandlers, h00, ih n' h e hn' he hb', List.take_succ_cons]

/-- C3: `run_hook` never changes the registry; with no handlers registered for
the event it is a no-op returning without error and without an invocation;
with handlers registered it invokes them in registration order, each with
exactly the given keyword arguments — all of them when none raises, and when
the first failure occurs at position `n` exactly the first `n + 1`, the
raised exception propagating and the rest never invoked. -/
theorem run_hook_dispatch {H K : Type} (events : EventMap H)
    (ex : H → K → Option PyErr) (event : String) (kw : K) :
    (run_hook events ex event kw).1 = events ∧
    (events.lookup event = none → run_hook events ex event kw = (events, [], none)) ∧
    (∀ hs, events.lookup event = some hs →
      ((∀ h ∈ hs, ex h kw = none) →
        run_hook events ex event kw = (events, hs.map (fun h => (h, kw)), none)) ∧
      (∀ n h e, hs[n]? = some h → ex h kw = some e →
        (∀ m hm, m < n → hs[m]? = some hm → ex hm kw = none) →
        run_hook events ex event kw =
          (events, (hs.take (n + 1)).map (fun x => (x, kw)), some e))) := by
  refine ⟨?_, ?_, ?_⟩
  · unfold run_hook
    cases events.lookup event <;> rfl
  · intro h
    unfold run_hook
    rw [h]
  · intro hs hlk
    constructor
    · intro hok
      unfold run_hook
      rw [hlk]
      show (events, runHandlers ex kw hs) = _
      rw [runHandlers_all_ok ex kw hs hok]
    · intro n h e hn he hb
      unfold run_hook
      rw [hlk]
      show (events, runHandlers ex kw hs) = _
      rw [runHandlers_stops ex kw hs n h e hn he hb]

theorem run_hook_dispatch_witness :
    run_hook evEx exAllOk "pre_commit" (1 : Nat) = (evEx, [(7, 1), (8, 1)], none) ∧
    run_hook evEx exAllOk "deploy" (1 : Nat) = (evEx, [], none) :=
  ⟨((run_hook_dispatch evEx exAllOk "pre_commit" 1).2.2 [7, 8] rfl).1
      (fun _ _ => rfl),
   (run_hook_dispatch evEx exAllOk "deploy" 1).2.1 rfl⟩

theorem pc_name_starts : strStartsWith "on_pre_commit" "on_" = true := rfl

theorem scanMembers_cons_skip (m : Module) (ev : EventMap (Module × PyMember))
    (p : PyMember) (ps : List PyMember)
    (h : (p.callable && strStartsWith p.name "on_") = false) :
    scanMembers m ev (p :: ps) = scanMembers m ev ps := by
  simp [scanMembers, h]

theorem scanMembers_cons_pc (m : Module) (ev : EventMap (Module × PyMember))
    (p : PyMember) (ps : List PyMember)
    (hc : (p.callable && strStartsWith p.name "on_") = true)
    (hn : p.name = "on_pre_commit") :
    scanMembers m ev (p :: ps) =
      scanMembers m (appendEvent ev "pre_commit" (m, p)) ps := by
  have hcall : p.callable = true := ((Bool.and_eq_true _ _).mp hc).1
  simp [scanMembers, hn, hcall, pc_name_starts]

theorem scanMembers_cons_bad (m : Module) (ev : EventMap (Module × PyMember))
    (p : PyMember) (ps : List PyMember)
    (hc : (p.callable && strStartsWith p.name "on_") = true)
    (hn : p.name ≠ "on_pre_commit") :
    scanMembers m ev (p :: ps) =
      .error (.exception "Exception" (unsupportedHookMsg p.name m.file)) := by
  simp [scanMembers, hc, hn]

theorem not_bad_cases (p : PyMember) (hpb : isBadHook p = false)
    (hc : (p.callable && strStartsWith p.name "on_") = true) :
    p.name = "on_pre_commit" := by
  unfold isBadHook at hpb
  rw [hc, Bool.true_and, Bool.not_eq_false'] at hpb
  exact eq_of_beq hpb

theorem not_pc_of_cond_false (p : PyMember)
    (hc : (p.callable && strStartsWith p.name "on_") = false) :
    isPreCommitHook p = false := by
  unfold isPreCommitHook
  by_cases hn : p.name = "on_pre_commit"
  · rw [hn] at hc ⊢
    rw [pc_name_starts, Bool.and_true] at hc
    rw [hc, Bool.false_and]
  · rw [beq_eq_false_iff_ne.mpr hn, Bool.and_false]

theorem scanMembers_ok (m : Module) :
    ∀ ps : List PyMember, (∀ p ∈ ps, isBadHook p = false) →
    ∀ ev, scanMembers m ev ps =
      .ok (((ps.filter isPreCommitHook).map (fun p => (m, p))).foldl
        (fun ev h => appendEvent ev "pre_commit" h) ev) := by
  intro ps
  induction ps with
  | nil => intro _ ev; rfl
  | cons p tl ih =>
    intro hgood ev
    have hp := hgood p (List.mem_cons_self p tl)
    have htl := fun x hx => hgood x (List.mem_cons_of_mem p hx)
    by_cases hcb : (p.callable && strStartsWith p.name "on_") = true
    · have hname := not_bad_cases p hp hcb
      have hpc : isPreCommitHook p = true := by
        unfold isPreCommitHook
        rw [hname, (Bool.and_eq_true _ _).mp hcb |>.1, Bool.true_and]
        rfl
      rw [scanMembers_cons_pc m ev p tl hcb hname, ih htl _,
        List.filter_cons_of_pos hpc, List.map_cons, List.foldl_cons]
    · have hcb' := bool_false_of_not_true hcb
      rw [scanMembers_cons_skip m ev p tl hcb', ih htl ev,
        List.filter_cons_of_neg (by rw [not_pc_of_cond_false p hcb']; exact Bool.false_ne_true)]

theorem scanMembers_err (m : Module) :
    ∀ ps : List PyMember, ps.any isBadHook = true →
    ∀ ev, ∃ p, p ∈ ps ∧ isBadHook p = true ∧
      scanMembers m ev ps =
        .error (.exception "Exception" (unsupportedHookMsg p.name m.file)) := by
  intro ps
  induction ps with
  | nil => intro h; simp at h
  | cons p tl ih =>
    intro hbad ev
    by_cases hpb : isBadHook p = true
    · have hc : (p.callable && strStartsWith p.name "on_") = true :=
        ((Bool.and_eq_true _ _).mp hpb).1
      have hn : p.name ≠ "on_pre_commit" := by
        have h2 := ((Bool.and_eq_true _ _).mp hpb).2
        intro he
        rw [he] at h2
        simp at h2
      exact ⟨p, List.mem_cons_self p tl, hpb, scanMembers_cons_bad m ev p tl hc hn⟩
    · have hpb' : isBadHook p = false := bool_false_of_not_true hpb
      have htl : tl.any isBadHook = true := by
        rw [List.any_cons, hpb', Bool.false_or] at hbad
        exact hbad
      by_cases hcb : (p.callable && strStartsWith p.name "on_") = true
      · have hname := not_bad_cases p hpb' hcb
        obtain ⟨q, hqmem, hqbad, hqeq⟩ := ih htl (appendEvent ev "pre_commit" (m, p))
        exact ⟨q, List.mem_cons_of_mem p hqmem, hqbad, by
          rw [scanMembers_cons_pc m ev p tl hcb hname]; exact hqeq⟩
      · obtain ⟨q, hqmem, hqbad, hqeq⟩ := ih htl ev
        exact ⟨q, List.mem_cons_of_mem p hqmem, hqbad, by
          rw [scanMembers_cons_skip m ev p tl (bool_false_of_not_true hcb)]; exact hqeq⟩

theorem appendEvent_pcMap (hs : List (Module × PyMember)) (h : Module × PyMember) :
    appendEvent (pcMap hs) "pre_commit" h = pcMap (hs ++ [h]) := by
  cases hs <;> simp [pcMap, appendEvent]

theorem foldl_appendEvent_pcMap (l : List (Module × PyMember)) :
    ∀ hs, l.foldl (fun ev h => appendEvent ev "pre_commit" h) (pcMap hs) =
      pcMap (hs ++ l) := by
  induction l with
  | nil => intro hs; simp
  | cons x xs ih =>
    intro hs
    rw [List.foldl_cons, appendEvent_pcMap, ih (hs ++ [x]), List.append_assoc]
    rfl

theorem buildEvents_cons_ok {m : Module} {ev ev' : EventMap (Module × PyMember)}
    {ms : List Module} (h : scanMembers m ev m.members = .ok ev') :
    buildEvents ev (m :: ms) = buildEvents ev' ms := by
  show (match scanMembers m ev m.members with
    | .ok ev' => buildEvents ev' ms
    | .error e => .error e) = buildEvents ev' ms
  rw [h]

theorem buildEvents_cons_err {m : Module} {ev : EventMap (Module × PyMember)}
    {e : PyErr} {ms : List Module} (h : scanMembers m ev m.members = .error e) :
    buildEvents ev (m :: ms) = .error e := by
  show (match scanMembers m ev m.members with
    | .ok ev' => buildEvents ev' ms
    | .error e => .error e) = .error e
  rw [h]

theorem buildEvents_ok :
    ∀ ms : List Module, hasBadHook ms = false → ∀ ev,
      buildEvents ev ms = .ok (ms.foldl (fun ev m =>
        ((m.members.filter isPreCommitHook).map (fun p => (m, p))).foldl
          (fun ev h => appendEvent ev "pre_commit" h) ev) ev) := by
  intro ms
  induction ms with
  | nil => intro _ ev; rfl
  | cons m tl ih =>
    intro hgood ev
    rw [hasBadHook, List.any_cons, Bool.or_eq_false_iff] at hgood
    have hmem : ∀ p ∈ m.members, isBadHook p = false := by
      intro p hp
      cases hb : isBadHook p with
      | false => rfl
      | true =>
        have hany : m.members.any isBadHook = true := List.any_eq_true.mpr ⟨p, hp, hb⟩
        rw [hany] at hgood
        exact absurd hgood.1 (by simp)
    rw [buildEvents_cons_ok (scanMembers_ok m m.members hmem ev), ih hgood.2 _,
      List.foldl_cons]

theorem buildEvents_err :
    ∀ ms : List Module, hasBadHook ms = true → ∀ ev,
      ∃ nm f, badNamed ms nm f = true ∧
        buildEvents ev ms = .error (.exception "Exception" (unsupportedHookMsg nm f)) := by
  intro ms
  induction ms with
  | nil => intro h; simp [hasBadHook] at h
  | cons m tl ih =>
    intro hbad ev
    by_cases hm : m.members.any isBadHook = true
    · obtain ⟨p, hpmem, hpbad, heq⟩ := scanMembers_err m m.members hm ev
      refine ⟨p.name, m.file, ?_, ?_⟩
      · rw [badNamed, List.any_cons, Bool.or_eq_true]
        left
        rw [Bool.and_eq_true]
        refine ⟨beq_self_eq_true m.file, List.any_eq_true.mpr ⟨p, hpmem, ?_⟩⟩
        rw [Bool.and_eq_true]
        exact ⟨beq_self_eq_true p.name, hpbad⟩
      · exact buildEvents_cons_err heq
    · have hm' : m.members.any isBadHook = false := bool_false_of_not_true hm
      have htl : hasBadHook tl = true := by
        rw [hasBadHook, List.any_cons, hm', Bool.false_or] at hbad
        exact hbad
      have hmem : ∀ p ∈ m.members, isBadHook p = false := by
        intro p hp
        cases hb : isBadHook p with
        | false => rfl
        | true => exact absurd (List.any_eq_true.mpr ⟨p, hp, hb⟩) hm
      obtain ⟨nm, f, hbn, heq⟩ := ih htl
        (((m.members.filter isPreCommitHook).map (fun p => (m, p))).foldl
          (fun ev h => appendEvent ev "pre_commit" h) ev)
      refine ⟨nm, f, ?_, ?_⟩
      · rw [badNamed, List.any_cons, Bool.or_eq_true]
        right
        exact hbn
      · rw [buildEvents_cons_ok (scanMembers_ok m m.members hmem ev)]
        exact heq

theorem foldl_modules_pcMap :
    ∀ (ms : List Module) (hs : List (Module × PyMember)),
      ms.foldl (fun ev m =>
        ((m.members.filter isPreCommitHook).map (fun p => (m, p))).foldl
          (fun ev h => appendEvent ev "pre_commit" h) ev) (pcMap hs)
      = pcMap (hs ++ preCommitHandlers ms) := by
  intro ms
  induction ms with
  | nil =>
    intro hs
    simp [preCommitHandlers]
  | cons m tl ih =>
    intro hs
    rw [List.foldl_cons, foldl_appendEvent_pcMap, ih]
    simp [preCommitHandlers, List.append_assoc]

/-- C2: registry construction during `on_config` fails whenever some loaded
module exports a callable member whose name starts with `on_` and is not
`on_pre_commit`, and the raised error's message names an offending member and
the `__file__` of the module it came from; when no module exports such a
member, construction succeeds and registers exactly the callable
`on_pre_commit` members — each under event `pre_commit`, in discovery
order. -/
theorem on_config_registry :
    (∀ ms : List Module, hasBadHook ms = true →
      ∃ nm f, badNamed ms nm f = true ∧
        buildEvents [] ms = .error (.exception "Exception" (unsupportedHookMsg nm f))) ∧
    (∀ ms : List Module, hasBadHook ms = false →
      buildEvents [] ms = .ok (pcMap (preCommitHandlers ms))) := by
  constructor
  · intro ms h
    exact buildEvents_err ms h []
  · intro ms h
    rw [buildEvents_ok ms h [], show ([] : EventMap (Module × PyMember)) = pcMap [] from rfl,
      foldl_modules_pcMap, List.nil_append]

theorem on_config_registry_witness :
    (∃ nm f, badNamed [modBad] nm f = true ∧
      buildEvents [] [modBad] =
        .error (.exception "Exception" (unsupportedHookMsg nm f))) ∧
    buildEvents [] [modGood] = .ok (pcMap (preCommitHandlers [modGood])) :=
  ⟨on_config_registry.1 [modBad] (by decide), on_config_registry.2 [modGood] (by decide)⟩

theorem truthy_of_ne (v : String) (h : ¬ v = "") : truthyStr (some v) = true := by
  show (!(v == "")) = true
  rw [beq_eq_false_iff_ne.mpr h]
  rfl

theorem on_config_site_url_eq (env : PyEnv) (pc : PluginConfig)
    (envVersion site_url : Option String) (st : LoadState) :
    (on_config env pc envVersion site_url st).site_url =
      if truthyStr envVersion && truthyStr site_url then
        match site_url, envVersion with
        | some u, some v =>
          some (urljoin u (match pc.canonical_version with | some c => c | none => v))
        | _, _ => site_url
      else site_url := rfl

/-- C4: during `on_config`, when the environment version token is present
(non-empty) and the configuration has a non-empty `site_url`, the effective
version is the `canonical_version` option when configured and the token
otherwise, and `site_url` becomes the url-join of the old `site_url` with
that effective version; concretely, base `https://example.com/docs/` with
token `2.0` and no override yields `https://example.com/docs/2.0`, and with
`canonical_version = latest` the result uses `latest` whatever the token. -/
theorem on_config_site_url :
    (∀ (env : PyEnv) (pc : PluginConfig) (v u : String) (st : LoadState),
      ¬ v = "" → ¬ u = "" →
      (on_config env pc (some v) (some u) st).site_url =
        some (urljoin u (pc.canonical_version.getD v))) ∧
    (∀ (env : PyEnv) (st : LoadState),
      (on_config env pcDefault (some "2.0") (some "https://example.com/docs/") st).site_url =
        some "https://example.com/docs/2.0") ∧
    (∀ (env : PyEnv) (st : LoadState) (v : String), ¬ v = "" →
      (on_config env pcLatest (some v) (some "https://example.com/docs/") st).site_url =
        some "https://example.com/docs/latest") := by
  refine ⟨?_, ?_, ?_⟩
  · intro env pc v u st hv hu
    rw [on_config_site_url_eq,
      if_pos (by rw [truthy_of_ne v hv, truthy_of_ne u hu]; rfl)]
    cases pc.canonical_version <;> rfl
  · intro env st
    rfl
  · intro env st v hv
    rw [on_config_site_url_eq,
      if_pos (by rw [truthy_of_ne v hv]; rfl)]
    rfl

theorem on_config_site_url_witness :
    (on_config exEnv pcDefault (some "2.0") (some "https://example.com/docs/") st0).site_url =
      some "https://example.com/docs/2.0" ∧
    (on_config exEnv pcLatest (some "2.0") (some "https://example.com/docs/") st0).site_url =
      some "https://example.com/docs/latest" ∧
    (on_config exEnv pcLatest (some "0.9") (some "https://example.com/docs/") st0).site_url =
      some "https://example.com/docs/latest" :=
  ⟨on_config_site_url.2.1 exEnv st0,
   on_config_site_url.2.2 exEnv st0 "2.0" (by decide),
   on_config_site_url.2.2 exEnv st0 "0.9" (by decide)⟩

/-- C10: with the `hooks` option left at its scheme default (`default=None`,
line 36 of the source), `on_config` raises
`TypeError: 'NoneType' object is not iterable` while building the hook
registry — the list comprehension iterates the `None` value — instead of
treating the absent option as zero hooks. -/
theorem on_config_hooks_none_raises :
    pcDefault.hooks = none ∧
    (∀ (env : PyEnv) (pc : PluginConfig) (envVersion site_url : Option String)
      (st : LoadState), pc.hooks = none →
      (on_config env pc envVersion site_url st).events =
        .error (.typeError "'NoneType' object is not iterable")) := by
  refine ⟨rfl, ?_⟩
  intro env pc envVersion site_url st h
  unfold on_config
  rw [h]

theorem on_config_hooks_none_raises_witness :
    (on_config exEnv pcDefault none none st0).events =
      .error (.typeError "'NoneType' object is not iterable") :=
  on_config_hooks_none_raises.2 exEnv pcDefault none none st0 rfl

/-- C8: with the `version_selector` option disabled, `on_files` returns the
manifest unchanged, leaves the configuration — its extra-assets lists
included — unchanged, and raises nothing, whatever the theme environment and
the existing state. -/
theorem on_files_selector_off (fs : FsEnv) (pc : PluginConfig) (cfg : SiteConfig)
    (files : List FileDesc) (h : pc.version_selector = false) :
    on_files fs pc cfg files = (files, cfg, none) := by
  unfold on_files
  rw [h]
  rfl

theorem on_files_selector_off_witness :
    on_files fsC9 pcNoSel cfgC9 exFiles = (exFiles, cfgC9, none) :=
  on_files_selector_off fsC9 pcNoSel cfgC9 exFiles rfl

/-- C7: when the theme-asset subsystem does not recognise the configured
theme (`get_theme_dir` raises `ValueError`, which `on_files` catches),
`on_files` does not fail and returns the manifest and the configuration —
extra-assets lists included — unchanged. -/
theorem on_files_unknown_theme (fs : FsEnv) (pc : PluginConfig) (cfg : SiteConfig)
    (files : List FileDesc) (h : fs.themeDir cfg.theme = none) :
    on_files fs pc cfg files = (files, cfg, none) := by
  unfold on_files
  cases hv : pc.version_selector with
  | false => rfl
  | true =>
    rw [h]
    rfl

theorem on_files_unknown_theme_witness :
    on_files fsNone pcDefault cfgEx exFiles = (exFiles, cfgEx, none) :=
  on_files_unknown_theme fsNone pcDefault cfgEx exFiles rfl

theorem injectFiles_clean (cfg_value srcdir destdir extraKind : String)
    (normExtras : List String) :
    ∀ listing (files : List FileDesc) (extras : List String),
      (∀ f ∈ listing, pathJoin cfg_value f ∉ normExtras) →
      injectFiles cfg_value srcdir destdir extraKind normExtras listing files extras =
        (files ++ listing.map (fun f => ⟨f, srcdir, destdir, false⟩),
         extras ++ listing.map (fun f => pathJoin cfg_value f), none) := by
  intro listing
  induction listing with
  | nil =>
    intro files extras _
    simp [injectFiles]
  | cons f fs ih =>
    intro files extras hno
    have hf : pathJoin cfg_value f ∉ normExtras := hno f (List.mem_cons_self f fs)
    unfold injectFiles
    rw [if_neg hf, ih _ _ (fun g hg => hno g (List.mem_cons_of_mem f hg))]
    simp

theorem injectFiles_collision (cfg_value srcdir destdir extraKind : String)
    (normExtras : List String) :
    ∀ pre (f : String) post (files : List FileDesc) (extras : List String),
      (∀ g ∈ pre, pathJoin cfg_value g ∉ normExtras) →
      pathJoin cfg_value f ∈ normExtras →
      injectFiles cfg_value srcdir destdir extraKind normExtras (pre ++ f :: post)
          files extras =
        (files ++ pre.map (fun g => ⟨g, srcdir, destdir, false⟩),
         extras ++ pre.map (fun g => pathJoin cfg_value g),
         some (.exception "PluginError" (dupAssetMsg (pathJoin cfg_value f) extraKind))) := by
  intro pre
  induction pre with
  | nil =>
    intro f post files extras _ hf
    rw [List.nil_append]
    unfold injectFiles
    rw [if_pos hf]
    simp
  | cons g gs ih =>
    intro f post files extras hno hf
    rw [List.cons_append]
    unfold injectFiles
    rw [if_neg (hno g (List.mem_cons_self g gs)),
      ih f post _ _ (fun x hx => hno x (List.mem_cons_of_mem g hx)) hf]
    simp

/-- C5: for each asset kind, `on_files`' injection loop checks every theme
file's relative destination (the kind's directory option joined with the
filename) against the user's pre-declared extra-assets list for the kind,
normalized with `normpath`: the first file whose destination is already
declared aborts injection with a `PluginError` naming the conflicting path
and the colliding extra-assets option (the files before it having been
appended); when no listed file collides, every file's descriptor is appended
to the manifest and its relative destination to the kind's extras list. -/
theorem on_files_inject_spec (fs : FsEnv)
    (theme_dir site_dir cfg_value sub extraKind : String)
    (extras : List String) (files : List FileDesc) :
    ((∀ f ∈ fs.listdir (pathJoin theme_dir sub),
        pathJoin cfg_value f ∉ extras.map normpath) →
      injectKind fs theme_dir site_dir cfg_value sub extraKind extras files =
        (files ++ (fs.listdir (pathJoin theme_dir sub)).map
            (fun f => ⟨f, pathJoin theme_dir sub, pathJoin site_dir cfg_value, false⟩),
         extras ++ (fs.listdir (pathJoin theme_dir sub)).map
            (fun f => pathJoin cfg_value f),
         none)) ∧
    (∀ pre (f : String) post, fs.listdir (pathJoin theme_dir sub) = pre ++ f :: post →
      (∀ g ∈ pre, pathJoin cfg_value g ∉ extras.map normpath) →
      pathJoin cfg_value f ∈ extras.map normpath →
      injectKind fs theme_dir site_dir cfg_value sub extraKind extras files =
        (files ++ pre.map
            (fun g => ⟨g, pathJoin theme_dir sub, pathJoin site_dir cfg_value, false⟩),
         extras ++ pre.map (fun g => pathJoin cfg_value g),
         some (.exception "PluginError"
           (dupAssetMsg (pathJoin cfg_value f) extraKind)))) := by
  constructor
  · intro hno
    unfold injectKind
    exact injectFiles_clean _ _ _ _ _ _ _ _ hno
  · intro pre f post hl hno hf
    unfold injectKind
    show injectFiles cfg_value (pathJoin theme_dir sub) (pathJoin site_dir cfg_value)
        extraKind (extras.map normpath) (fs.listdir (pathJoin theme_dir sub)) files extras = _
    rw [hl]
    exact injectFiles_collision _ _ _ _ _ pre f post _ _ hno hf

theorem on_files_inject_spec_witness :
    injectKind fsC5 "theme" "site" "css" "css" "extra_css" ["css/theme.css"] [] =
      ([], ["css/theme.css"],
        some (.exception "PluginError" (dupAssetMsg "css/theme.css" "extra_css"))) :=
  (on_files_inject_spec fsC5 "theme" "site" "css" "css" "extra_css"
      ["css/theme.css"] []).2 [] "theme.css" [] rfl (by simp) (by decide)

/-- C9: `on_files` is not atomic on failure: with a collision on the js kind
after the css kind has been injected, the `PluginError` is raised with the
css descriptor already appended to the manifest and the css relative path
already appended to `extra_css`, and these earlier mutations are not rolled
back. -/
theorem on_files_not_atomic :
    on_files fsC9 pcDefault cfgC9 [] =
      ([⟨"extra.css", "theme/css", "site/css", false⟩],
       { cfgC9 with extra_css := ["css/extra.css"] },
       some (.exception "PluginError" (dupAssetMsg "js/extra.js" "extra_javascript"))) := rfl

/-- C6 (evaluation at the failing input): on a path that cannot be resolved to
a module spec, `_load_hook` does fail, but with `NameError: name
'ValidationError' is not defined` — `ValidationError` is never imported or
defined in the module — so the raised error's message does not name the
offending path, contrary to the spec's `ModuleLoadError` naming the path. -/
theorem load_hook_unresolvable_raises_nameError :
    load_hook badEnv st0 "hooks.txt" = (.error (PyErr.nameError "ValidationError"), st0) ∧
    (PyErr.nameError "ValidationError").message = "name 'ValidationError' is not defined" ∧
    (validationErrorRaise "hooks.txt").message = "name 'ValidationError' is not defined" :=
  ⟨rfl, rfl, rfl⟩

end Mike
